import Mathlib

/-!
Verification of the contactless fingerprint enrollment/verification pipeline
(`fingerprint_processing.py`, `database.py`).

Images are embedded as rectangular grids: grayscale images as
`List (List Nat)` (uint8 intensities) and binary/skeleton images as
`List (List Bool)`.  The library primitives the code calls
(`skimage.filters.threshold_otsu`, `skimage.morphology.skeletonize`,
`scipy.spatial.cKDTree.query`, `cv2.BFMatcher` with Hamming norm and
cross-check) are embedded from their well-known published semantics, as the
repository uses them as black boxes.  The cv2 image primitives that have no
discrete specification (file reading, Laplacian variance, CLAHE/Gabor
enhancement, ORB detection, image rotation) are abstracted into an
environment record `Env`; all theorems quantify over it.
-/

namespace FP

/-- Desc is one ORB descriptor: a list of bytes, matched by Hamming distance. -/
abbrev Desc := List Nat

/-- Img is a grayscale image: a rectangular grid of uint8 intensities. -/
abbrev Img := List (List Nat)

/-- BGrid is a binary image (skeleton): a rectangular grid of booleans. -/
abbrev BGrid := List (List Bool)

/-- bget reads a pixel of a binary grid; out-of-range reads are background
(false), which models both numpy border behaviour in the interior scans and
the zero padding used by the thinning routine. -/
def bget (g : BGrid) (i j : Int) : Bool :=
  if 0 ≤ i ∧ 0 ≤ j then (g.getD i.toNat []).getD j.toNat false else false

/-- rowsOf is the number of rows of a grid. -/
def rowsOf (g : BGrid) : Nat := g.length

/-- colsOf is the number of columns of a (rectangular) grid. -/
def colsOf (g : BGrid) : Nat := (g.headD []).length

/-- nbrs lists the 8 neighbours of a pixel in the circular order
P2..P9 = N, NE, E, SE, S, SW, W, NW used by the thinning algorithm. -/
def nbrs (g : BGrid) (i j : Int) : List Bool :=
  [bget g (i-1) j, bget g (i-1) (j+1), bget g i (j+1), bget g (i+1) (j+1),
   bget g (i+1) j, bget g (i+1) (j-1), bget g i (j-1), bget g (i-1) (j-1)]

/-- bCount is the number of object neighbours of a pixel (B(p) in Zhang-Suen). -/
def bCount (g : BGrid) (i j : Int) : Nat := (nbrs g i j).countP id

/-- aTrans is the number of background-to-object transitions in the circular
neighbour sequence (A(p) in Zhang-Suen). -/
def aTrans (g : BGrid) (i j : Int) : Nat :=
  let l := nbrs g i j
  ((l.zip (l.rotate 1)).countP fun ab => !ab.1 && ab.2)

/-- zhangDeletable decides whether a pixel is deleted in one subiteration of
the Zhang-Suen thinning used by skimage.morphology.skeletonize: the pixel is
an object pixel with 2 <= B(p) <= 6, A(p) = 1 and, in the first subiteration,
N*E*S = 0 and E*S*W = 0 (in the second, N*E*W = 0 and N*S*W = 0). -/
def zhangDeletable (g : BGrid) (first : Bool) (i j : Int) : Bool :=
  bget g i j &&
  decide (2 ≤ bCount g i j) && decide (bCount g i j ≤ 6) &&
  decide (aTrans g i j = 1) &&
  (if first then
    !(bget g (i-1) j && bget g i (j+1) && bget g (i+1) j) &&
    !(bget g i (j+1) && bget g (i+1) j && bget g i (j-1))
   else
    !(bget g (i-1) j && bget g i (j+1) && bget g i (j-1)) &&
    !(bget g (i-1) j && bget g (i+1) j && bget g i (j-1)))

/-- mapGrid rebuilds a grid of the same dimensions from a pixel function. -/
def mapGrid (g : BGrid) (f : Int → Int → Bool) : BGrid :=
  (List.range (rowsOf g)).map fun i => (List.range (colsOf g)).map fun j => f i j

/-- zhangPass performs one parallel subiteration of Zhang-Suen thinning:
all deletable pixels are removed simultaneously. -/
def zhangPass (g : BGrid) (first : Bool) : BGrid :=
  mapGrid g fun i j => bget g i j && !(zhangDeletable g first i j)

/-- zhangStep is one full iteration of Zhang-Suen thinning: the first
subiteration followed by the second on its result. -/
def zhangStep (g : BGrid) : BGrid := zhangPass (zhangPass g true) false

/-- onCount is the number of object pixels of a binary grid. -/
def onCount (g : BGrid) : Nat := g.flatten.countP id

/-- zhangThin iterates zhangStep until the grid no longer changes; the fuel
bounds the iteration count (each non-final iteration deletes a pixel). -/
def zhangThin : Nat → BGrid → BGrid
  | 0, g => g
  | n + 1, g =>
    let g2 := zhangStep g
    if g2 = g then g else zhangThin n g2

/-- classVar is the between-class weighted variance of splitting an intensity
population at threshold t (class 0: values <= t, class 1: values > t), the
quantity Otsu thresholding maximises. -/
def classVar (l : List Nat) (t : Nat) : ℚ :=
  let below := l.filter fun v => v ≤ t
  let above := l.filter fun v => t < v
  if below.length = 0 ∨ above.length = 0 then 0
  else
    ((below.length : ℚ) * (above.length : ℚ)) *
      ((below.sum : ℚ) / (below.length : ℚ) - (above.sum : ℚ) / (above.length : ℚ)) ^ 2

/-- argmaxFirst returns the first element of the list attaining the maximal
value of f, mirroring numpy argmax tie-breaking. -/
def argmaxFirst (f : Nat → ℚ) (l : List Nat) : Option Nat :=
  l.foldl (fun acc x =>
    match acc with
    | none => some x
    | some b => if f b < f x then some x else acc) none

/-- threshold_otsu models skimage.filters.threshold_otsu on a uint8 image:
a constant image yields its constant value; otherwise the threshold is the
first intensity below 255 present in the image that maximises the
between-class variance (for uint8 data the candidate cuts are the occupied
histogram bins except the last). -/
def threshold_otsu (img : Img) : Nat :=
  match img.flatten with
  | [] => 0
  | v :: vs =>
    if vs.all fun x => x = v then v
    else
      let px := img.flatten
      let cands := (List.range 255).filter fun t => decide (t ∈ px)
      (argmaxFirst (classVar px) cands).getD 0

/-- binarizeImg is the binarisation step of skeletonize in the source:
image > threshold_otsu(image). -/
def binarizeImg (img : Img) : BGrid :=
  let t := threshold_otsu img
  img.map fun row => row.map fun v => decide (t < v)

/-- skeletonize embeds the source function of the same name: Otsu
binarisation followed by morphological (Zhang-Suen) thinning.  The source
rescales the boolean result to a 0/255 uint8 image; we keep the boolean
grid, and renderSkel is the 0/255 rendering. -/
def skeletonize (img : Img) : BGrid :=
  let b := binarizeImg img
  zhangThin (onCount b + 1) b

/-- renderSkel renders a boolean skeleton as a 0/255 grayscale image
(astype(uint8) * 255 in the source). -/
def renderSkel (S : BGrid) : Img :=
  S.map fun row => row.map fun b => if b then 255 else 0

/-- boolNat counts a boolean pixel as 0 or 1. -/
def boolNat (b : Bool) : Nat := if b then 1 else 0

/-- windowCount is np.sum(window == 255) for the 3x3 window centred on an
interior pixel of the skeleton image. -/
def windowCount (g : BGrid) (i j : Nat) : Nat :=
  boolNat (bget g ((i:Int) - 1) ((j:Int) - 1)) + boolNat (bget g ((i:Int) - 1) (j:Int)) +
  boolNat (bget g ((i:Int) - 1) ((j:Int) + 1)) +
  boolNat (bget g (i:Int) ((j:Int) - 1)) + boolNat (bget g (i:Int) (j:Int)) +
  boolNat (bget g (i:Int) ((j:Int) + 1)) +
  boolNat (bget g ((i:Int) + 1) ((j:Int) - 1)) + boolNat (bget g ((i:Int) + 1) (j:Int)) +
  boolNat (bget g ((i:Int) + 1) ((j:Int) + 1))

/-- crossings is the count variable of extract_minutiae: the number of object
pixels in the 3x3 window minus one (the centre pixel is excluded). -/
def crossings (g : BGrid) (i j : Nat) : Nat := windowCount g i j - 1

/-- neighborCount is the number of object pixels among the 8 neighbours of a
pixel, the quantity the specification describes. -/
def neighborCount (g : BGrid) (i j : Int) : Nat := (nbrs g i j).countP id

/-- minutiaType is the classification branch of extract_minutiae: count 1 is
a ridge ending, count at least 3 is a bifurcation, anything else is skipped. -/
def minutiaType (g : BGrid) (i j : Nat) : Option String :=
  if crossings g i j = 1 then some "ending"
  else if 3 ≤ crossings g i j then some "bifurcation"
  else none

/-- USE_MINUTIAE_FILTERING is the module-level noise filtering flag (True). -/
def USE_MINUTIAE_FILTERING : Bool := true

/-- density is np.sum(local_window == 255) for the 11x11 window centred on a
pixel, clamped at the image borders exactly as the numpy slice
skeleton[max(i-5,0):i+6, max(j-5,0):j+6] is. -/
def density (g : BGrid) (i j : Nat) : Nat :=
  ((List.range (rowsOf g)).flatMap fun r => (List.range (colsOf g)).map fun c => (r, c)).countP
    fun rc =>
      decide (i - 5 ≤ rc.1 ∧ rc.1 < i + 6 ∧ j - 5 ≤ rc.2 ∧ rc.2 < j + 6) && bget g rc.1 rc.2

/-- minutiaKeep is the density filter of extract_minutiae: with filtering
enabled a candidate is kept only if its local density is at least 10. -/
def minutiaKeep (g : BGrid) (i j : Nat) : Bool :=
  !USE_MINUTIAE_FILTERING || decide (10 ≤ density g i j)

/-- interiorPixels lists the pixels visited by the extract_minutiae scan:
rows 1..rows-2 and columns 1..cols-2 in raster order (the outer one-pixel
frame is excluded). -/
def interiorPixels (g : BGrid) : List (Nat × Nat) :=
  (List.range (rowsOf g - 2)).flatMap fun i =>
    (List.range (colsOf g - 2)).map fun j => (i + 1, j + 1)

/-- minutiae_endings is the list of retained ridge-ending candidates in
raster order. -/
def minutiae_endings (g : BGrid) : List (Nat × Nat) :=
  (interiorPixels g).filter fun p =>
    bget g p.1 p.2 && (minutiaType g p.1 p.2 == some "ending") && minutiaKeep g p.1 p.2

/-- minutiae_bifurcations is the list of retained bifurcation candidates in
raster order. -/
def minutiae_bifurcations (g : BGrid) : List (Nat × Nat) :=
  (interiorPixels g).filter fun p =>
    bget g p.1 p.2 && (minutiaType g p.1 p.2 == some "bifurcation") && minutiaKeep g p.1 p.2

/-- minutiaeScan is the minutiae list produced from a skeleton grid: all
endings followed by all bifurcations, as extract_minutiae returns
minutiae_endings + minutiae_bifurcations. -/
def minutiaeScan (g : BGrid) : List (Nat × Nat) :=
  minutiae_endings g ++ minutiae_bifurcations g

/-- extract_minutiae embeds the source function of the same name: skeletonize
the (enhanced) image, then scan the skeleton for minutiae. -/
def extract_minutiae (img : Img) : List (Nat × Nat) :=
  minutiaeScan (skeletonize img)

/-- popcount is the number of set bits of one descriptor byte. -/
def popcount (n : Nat) : Nat := (List.range 8).countP fun k => n.testBit k

/-- hamming is the bitwise Hamming distance between two binary descriptors
(cv2.NORM_HAMMING). -/
def hamming (d1 d2 : Desc) : Nat :=
  ((d1.zip d2).map fun p => popcount (p.1 ^^^ p.2)).sum

/-- bestIdx is the index of the nearest neighbour of a descriptor in a
descriptor list under Hamming distance, the first such index on ties. -/
def bestIdx (d : Desc) (ts : List Desc) : Option Nat :=
  (List.range ts.length).foldl (fun acc k =>
    match acc with
    | none => some k
    | some b => if hamming d (ts.getD k []) < hamming d (ts.getD b []) then some k else acc)
    none

/-- bfMatchCount models len(bf.match(qs, ts)) for a BFMatcher with Hamming
norm and crossCheck=True: the number of query descriptors i whose nearest
train descriptor j has i as its own nearest query descriptor. -/
def bfMatchCount (qs ts : List Desc) : Nat :=
  (List.range qs.length).countP fun i =>
    match bestIdx (qs.getD i []) ts with
    | some j => decide (bestIdx (ts.getD j []) qs = some i)
    | none => false

/-- orbAccuracy is accuracy_orb in verify_fingerprint:
(len(matches) / max(len(descriptors), len(stored_desc))) * 100. -/
def orbAccuracy (ds stored : List Desc) : ℚ :=
  ((bfMatchCount ds stored : ℚ) / ((max ds.length stored.length : Nat) : ℚ)) * 100

/-- dist2 is the squared Euclidean distance between two minutiae points. -/
def dist2 (p q : Nat × Nat) : Int :=
  ((p.1 : Int) - (q.1 : Int)) ^ 2 + ((p.2 : Int) - (q.2 : Int)) ^ 2

/-- nearestDist2 is the squared distance from a probe point to its nearest
stored point, the quantity the cKDTree k=1 query minimises. -/
def nearestDist2 (p : Nat × Nat) (stored : List (Nat × Nat)) : Option Int :=
  stored.foldl (fun acc q =>
    match acc with
    | none => some (dist2 p q)
    | some d => if dist2 p q < d then some (dist2 p q) else acc) none

/-- nearestWithin decides whether the nearest stored point of a probe point
lies within distance 6 (squared distance at most 36), which is exactly when
the cKDTree query with distance_upper_bound=6 returns a finite distance. -/
def nearestWithin (p : Nat × Nat) (stored : List (Nat × Nat)) : Bool :=
  match nearestDist2 p stored with
  | some d => decide (d ≤ 36)
  | none => false

/-- minutiaMatched is matched_minutiae in verify_fingerprint: the number of
probe points whose nearest stored point lies within radius 6. -/
def minutiaMatched (probe stored : List (Nat × Nat)) : Nat :=
  probe.countP fun p => nearestWithin p stored

/-- minutiaAccuracy is accuracy_minutiae in verify_fingerprint: the matched
ratio scaled to 100 when both sets are non-empty, and 0 otherwise. -/
def minutiaAccuracy (probe stored : List (Nat × Nat)) : ℚ :=
  if 0 < probe.length ∧ 0 < stored.length then
    ((minutiaMatched probe stored : ℚ) / ((max probe.length stored.length : Nat) : ℚ)) * 100
  else 0

/-- Env collects the cv2 primitives the pipeline calls whose numeric
behaviour has no discrete specification; every theorem quantifies over it.
readImage is cv2.imread (grayscale), lapVar the Laplacian variance used by
the blur gate, fpPresent the contour-based is_fingerprint_present check
(which re-reads the file itself, hence a function of the path), rotate the
warpAffine rotation, enhance the CLAHE/equalize/Gaussian/Gabor enhancement
pipeline, and orbDetect the ORB descriptor extraction (None becomes []). -/
structure Env where
  readImage : String → Option Img
  lapVar : Img → ℚ
  fpPresent : String → Bool
  rotate : Img → Int → Img
  enhance : Img → Img
  orbDetect : Img → List Desc

/-- is_image_blurry embeds the source blur gate with its default threshold
5.0: the image is blurry when the Laplacian variance is below 5. -/
def is_image_blurry (env : Env) (img : Img) : Bool :=
  decide (env.lapVar img < 5)

/-- Template is one stored fingerprint record: ORB descriptors, minutiae
points and identity metadata, as serialised by register_fingerprint. -/
structure Template where
  orb : List Desc
  minutiae : List (Nat × Nat)
  username : String
  phone : String

/-- DB is the fingerprints table: rows of (user_id, template) in insertion
order, with user_id unique. -/
abbrev DB := List (String × Template)

/-- get_fingerprint_by_id embeds the database lookup: the first row whose
user_id matches. -/
def get_fingerprint_by_id (db : DB) (uid : String) : Option Template :=
  (db.find? fun r => r.1 == uid).map fun r => r.2

/-- save_fingerprint embeds the database insert: a row is appended unless the
UNIQUE constraint on user_id fires, in which case the table is unchanged and
the duplicate message is returned. -/
def save_fingerprint (db : DB) (uid : String) (t : Template) : String × DB :=
  match get_fingerprint_by_id db uid with
  | some _ => ("User ID already registered.", db)
  | none => ("Fingerprint registered successfully.", db ++ [(uid, t)])

/-- register_fingerprint embeds the source function of the same name; the
returned pair is (message, resulting database). -/
def register_fingerprint (env : Env) (db : DB) (path uid username phone : String) :
    String × DB :=
  match env.readImage path with
  | none => ("Image could not be read.", db)
  | some image =>
    if is_image_blurry env image then
      ("Image too blurry. Please capture a clearer fingerprint.", db)
    else if !env.fpPresent path then
      ("No fingerprint detected! Please place your finger properly.", db)
    else
      let enhanced := env.enhance image
      let descriptors := env.orbDetect enhanced
      let minutiae := extract_minutiae enhanced
      if descriptors.isEmpty then ("Fingerprint not detected.", db)
      else
        match get_fingerprint_by_id db uid with
        | some _ => ("User ID already registered.", db)
        | none => save_fingerprint db uid ⟨descriptors, minutiae, username, phone⟩

/-- Score3 is one hypothesis score triple (final_score, accuracy_orb,
accuracy_minutiae). -/
abbrev Score3 := ℚ × ℚ × ℚ

/-- hypScore is one iteration of the multi-angle matching loop of
verify_fingerprint: none when the hypothesis is skipped for lack of
descriptors, otherwise the fused/orb/minutiae score triple for that angle. -/
def hypScore (env : Env) (storedDesc : List Desc) (storedMin : List (Nat × Nat))
    (base : Img) (angle : Int) : Option Score3 :=
  let enhanced := env.enhance (env.rotate base angle)
  let descriptors := env.orbDetect enhanced
  if descriptors.isEmpty then none
  else
    let minutiae := extract_minutiae enhanced
    let accuracyOrb := orbAccuracy descriptors storedDesc
    let accuracyMin := minutiaAccuracy minutiae storedMin
    some (accuracyOrb * 0.1 + accuracyMin * 0.9, accuracyOrb, accuracyMin)

/-- angles is the fixed rotation hypothesis list of verify_fingerprint. -/
def angles : List Int := [-10, -5, 0, 5, 10]

/-- bestStep is the running-best update of the loop: replace the best triple
exactly when the new final score is strictly greater. -/
def bestStep (b t : Score3) : Score3 := if b.1 < t.1 then t else b

/-- loopStep processes one angle of the loop: a skipped hypothesis leaves the
best triple unchanged, a scored one applies bestStep. -/
def loopStep (acc : Score3) (s : Option Score3) : Score3 :=
  match s with
  | none => acc
  | some t => bestStep acc t

/-- bestScores is the (best_final_score, best_orb_score, best_minutiae_score)
triple after the multi-angle loop, starting from (0, 0, 0). -/
def bestScores (env : Env) (storedDesc : List Desc) (storedMin : List (Nat × Nat))
    (base : Img) : Score3 :=
  ((angles.map (hypScore env storedDesc storedMin base)).foldl loopStep (0, 0, 0))

/-- MATCH_THRESHOLD is the fused-score decision threshold of the source. -/
def MATCH_THRESHOLD : ℚ := 26

/-- verifyDecision is the final decision rule of verify_fingerprint:
best_final_score >= 26 or (best_orb_score > 45 and best_minutiae_score > 15). -/
def verifyDecision (best : Score3) : Bool :=
  decide (MATCH_THRESHOLD ≤ best.1) ||
    (decide ((45 : ℚ) < best.2.1) && decide ((15 : ℚ) < best.2.2))

/-- MatchResult is the dictionary returned by verify_fingerprint. -/
structure MatchResult where
  status : String
  is_match : Bool
  accuracy : ℚ
  orb_score : ℚ
  minutiae_score : ℚ
  username : Option String
  message : String
deriving DecidableEq

/-- verify_fingerprint embeds the source function of the same name. -/
def verify_fingerprint (env : Env) (db : DB) (path uid : String) : MatchResult :=
  match env.readImage path with
  | none =>
    { status := "error", is_match := false, accuracy := 0, orb_score := 0,
      minutiae_score := 0, username := none, message := "Invalid image file." }
  | some base =>
    if is_image_blurry env base then
      { status := "blurry", is_match := false, accuracy := 0, orb_score := 0,
        minutiae_score := 0, username := none,
        message := "Fingerprint image is too blurry." }
    else if !env.fpPresent path then
      { status := "no_fingerprint", is_match := false, accuracy := 0, orb_score := 0,
        minutiae_score := 0, username := none,
        message := "No fingerprint detected. Please try again." }
    else
      match get_fingerprint_by_id db uid with
      | none =>
        { status := "no_user", is_match := false, accuracy := 0, orb_score := 0,
          minutiae_score := 0, username := none,
          message := "No fingerprint data found for this user ID." }
      | some stored =>
        let best := bestScores env stored.orb stored.minutiae base
        { status := if verifyDecision best then "match_found" else "no_match",
          is_match := verifyDecision best,
          accuracy := best.1,
          orb_score := best.2.1,
          minutiae_score := best.2.2,
          username := some stored.username,
          message := if verifyDecision best then "Match found" else "No match found" }

/-! Concrete instances used to exercise the theorems on closed inputs. -/

/-- imgW is a 1x1 all-dark probe image; its skeleton is empty, so it has no
minutiae. -/
def imgW : Img := [[0]]

/-- envW is an environment whose quality gates all pass, whose enhancement
returns the all-dark image and whose ORB detector finds exactly one
descriptor; rotation is the identity. -/
def envW : Env where
  readImage := fun _ => some imgW
  lapVar := fun _ => 100
  fpPresent := fun _ => true
  rotate := fun img _ => img
  enhance := fun _ => imgW
  orbDetect := fun _ => [[0]]

/-- tW is the template envW enrollment produces: one descriptor, no
minutiae. -/
def tW : Template := { orb := [[0]], minutiae := [], username := "alice", phone := "111" }

/-- dbW is a database holding tW under user id u1. -/
def dbW : DB := [("u1", tW)]

/-- envE is envW with an ORB detector that finds no descriptors. -/
def envE : Env where
  readImage := fun _ => some imgW
  lapVar := fun _ => 100
  fpPresent := fun _ => true
  rotate := fun img _ => img
  enhance := fun _ => imgW
  orbDetect := fun _ => []

/-- plusSkel is a 13x13 plus-shaped skeleton: a horizontal and a vertical
11-pixel line crossing at (6,6).  It is a fixed point of the thinning and
its minutiae scan is non-empty (four endings and a central bifurcation
region). -/
def plusSkel : BGrid :=
  (List.range 13).map fun i => (List.range 13).map fun j =>
    decide ((i = 6 ∧ 1 ≤ j ∧ j ≤ 11) ∨ (j = 6 ∧ 1 ≤ i ∧ i ≤ 11))

/-- imgPlus is the plus skeleton rendered as a 0/255 image. -/
def imgPlus : Img := renderSkel plusSkel

/-- envP is an environment whose enhancement always yields imgPlus, so both
enrollment and every verification hypothesis see the same non-empty minutiae
set; rotation is the identity. -/
def envP : Env where
  readImage := fun _ => some imgPlus
  lapVar := fun _ => 100
  fpPresent := fun _ => true
  rotate := fun img _ => img
  enhance := fun _ => imgPlus
  orbDetect := fun _ => [[7]]

/-- thinL is a three-pixel staircase corner: a width-1 configuration (no 2x2
object block) that Zhang-Suen thinning nevertheless erodes. -/
def thinL : BGrid := [[false, true, true], [false, true, false], [false, false, false]]

/-- lineSkel is a three-pixel horizontal line, a fixed point of the
thinning. -/
def lineSkel : BGrid := [[false, false, false], [true, true, true], [false, false, false]]

/-- isThin decides the thinness post-condition the specification attributes
to skeletons (every object pixel on a width-1 ridge): no 2x2 block of the
grid is entirely made of object pixels. -/
def isThin (g : BGrid) : Bool :=
  (List.range (rowsOf g)).all fun i => (List.range (colsOf g)).all fun j =>
    !(bget g i j && bget g i ((j:Int)+1) && bget g ((i:Int)+1) j &&
      bget g ((i:Int)+1) ((j:Int)+1))

/-! Structural lemmas about the minutiae scan. -/

theorem mem_interiorPixels (g : BGrid) (i j : Nat) :
    (i, j) ∈ interiorPixels g ↔ 1 ≤ i ∧ i + 1 < rowsOf g ∧ 1 ≤ j ∧ j + 1 < colsOf g := by
  simp only [interiorPixels, List.mem_flatMap, List.mem_map, List.mem_range, Prod.mk.injEq]
  constructor
  · rintro ⟨a, ha, b, hb, h1, h2⟩
    omega
  · rintro ⟨h1, h2, h3, h4⟩
    exact ⟨i - 1, by omega, j - 1, by omega, by omega, by omega⟩

theorem windowCount_on (g : BGrid) (i j : Nat) (hon : bget g (i:Int) (j:Int) = true) :
    windowCount g i j = neighborCount g (i:Int) (j:Int) + 1 := by
  simp only [windowCount, neighborCount, nbrs, List.countP_cons, List.countP_nil, boolNat,
    id_eq, hon, if_true]
  ring

theorem crossings_on (g : BGrid) (i j : Nat) (hon : bget g (i:Int) (j:Int) = true) :
    crossings g i j = neighborCount g (i:Int) (j:Int) := by
  rw [crossings, windowCount_on g i j hon]
  omega

theorem mem_minutiae_endings (g : BGrid) (p : Nat × Nat) :
    p ∈ minutiae_endings g ↔
      p ∈ interiorPixels g ∧ bget g p.1 p.2 = true ∧
        minutiaType g p.1 p.2 = some "ending" ∧ minutiaKeep g p.1 p.2 = true := by
  simp [minutiae_endings, List.mem_filter, Bool.and_eq_true, beq_iff_eq, and_assoc]

theorem mem_minutiae_bifurcations (g : BGrid) (p : Nat × Nat) :
    p ∈ minutiae_bifurcations g ↔
      p ∈ interiorPixels g ∧ bget g p.1 p.2 = true ∧
        minutiaType g p.1 p.2 = some "bifurcation" ∧ minutiaKeep g p.1 p.2 = true := by
  simp [minutiae_bifurcations, List.mem_filter, Bool.and_eq_true, beq_iff_eq, and_assoc]

theorem mem_minutiaeScan (g : BGrid) (p : Nat × Nat) :
    p ∈ minutiaeScan g ↔ p ∈ minutiae_endings g ∨ p ∈ minutiae_bifurcations g := by
  simp [minutiaeScan]

/-! Lemmas about the running-best fold of the hypothesis loop. -/

theorem foldl_loopStep_fst_le (l : List (Option Score3)) (acc : Score3) :
    acc.1 ≤ (l.foldl loopStep acc).1 := by
  induction l generalizing acc with
  | nil => simp
  | cons o t ih =>
    rcases o with _ | s
    · simpa [loopStep] using ih acc
    · by_cases h : acc.1 < s.1
      · calc acc.1 ≤ s.1 := le_of_lt h
          _ ≤ (t.foldl loopStep s).1 := ih s
          _ = ((some s :: t).foldl loopStep acc).1 := by
              simp [loopStep, bestStep, if_pos h]
      · simpa [loopStep, bestStep, if_neg h] using ih acc

theorem foldl_loopStep_ge_of_mem (l : List (Option Score3)) (acc : Score3) (s : Score3)
    (h : some s ∈ l) : s.1 ≤ (l.foldl loopStep acc).1 := by
  induction l generalizing acc with
  | nil => simp at h
  | cons o t ih =>
    rcases List.mem_cons.mp h with h1 | h2
    · subst h1
      by_cases hlt : acc.1 < s.1
      · simpa [loopStep, bestStep, if_pos hlt] using foldl_loopStep_fst_le t s
      · have hs : s.1 ≤ acc.1 := le_of_not_lt hlt
        calc s.1 ≤ acc.1 := hs
          _ ≤ (t.foldl loopStep acc).1 := foldl_loopStep_fst_le t acc
          _ = ((some s :: t).foldl loopStep acc).1 := by
              simp [loopStep, bestStep, if_neg hlt]
    · rcases o with _ | u
      · simpa [loopStep] using ih acc h2
      · simp only [List.foldl_cons, loopStep, bestStep]
        split
        · exact ih _ h2
        · exact ih _ h2

theorem foldl_loopStep_reduceOption (l : List (Option Score3)) (acc : Score3) :
    l.foldl loopStep acc = l.reduceOption.foldl bestStep acc := by
  induction l generalizing acc with
  | nil => simp [List.reduceOption]
  | cons o t ih =>
    rcases o with _ | s
    · simp [loopStep, List.reduceOption_cons_of_none, ih]
    · simp [loopStep, List.reduceOption_cons_of_some, ih]

theorem foldl_bestStep_spec (l : List Score3) (b : Score3) :
    (l.foldl bestStep b = b ∧ ∀ t ∈ l, t.1 ≤ b.1) ∨
    (∃ i, ∃ hi : i < l.length, l.foldl bestStep b = l.get ⟨i, hi⟩ ∧
      b.1 < (l.get ⟨i, hi⟩).1 ∧
      (∀ j, ∀ hj : j < l.length, (l.get ⟨j, hj⟩).1 ≤ (l.get ⟨i, hi⟩).1) ∧
      (∀ j, ∀ hj : j < l.length, j < i → (l.get ⟨j, hj⟩).1 < (l.get ⟨i, hi⟩).1)) := by
  induction l generalizing b with
  | nil => exact Or.inl ⟨rfl, by simp⟩
  | cons x t ih =>
    by_cases hx : b.1 < x.1
    · have hstep : ((x :: t).foldl bestStep b) = t.foldl bestStep x := by
        simp [bestStep, if_pos hx]
      right
      rcases ih x with ⟨heq, hle⟩ | ⟨i, hi, heq, hlt, hmax, hfirst⟩
      · refine ⟨0, Nat.succ_pos _, ?_, hx, ?_, ?_⟩
        · rw [hstep]; exact heq
        · intro j hj
          match j with
          | 0 => exact le_rfl
          | j' + 1 =>
            exact hle (t.get ⟨j', Nat.lt_of_succ_lt_succ hj⟩)
              (List.get_mem t j' (Nat.lt_of_succ_lt_succ hj))
        · intro j hj hj0
          omega
      · refine ⟨i + 1, Nat.succ_lt_succ hi, ?_, lt_trans hx hlt, ?_, ?_⟩
        · rw [hstep]; exact heq
        · intro j hj
          match j with
          | 0 => exact le_of_lt hlt
          | j' + 1 => exact hmax j' (Nat.lt_of_succ_lt_succ hj)
        · intro j hj hji
          match j with
          | 0 => exact hlt
          | j' + 1 => exact hfirst j' (Nat.lt_of_succ_lt_succ hj) (by omega)
    · have hstep : ((x :: t).foldl bestStep b) = t.foldl bestStep b := by
        simp [bestStep, if_neg hx]
      have hxb : x.1 ≤ b.1 := le_of_not_lt hx
      rcases ih b with ⟨heq, hle⟩ | ⟨i, hi, heq, hlt, hmax, hfirst⟩
      · left
        refine ⟨by rw [hstep]; exact heq, ?_⟩
        intro u hu
        rcases List.mem_cons.mp hu with h1 | h2
        · subst h1; exact hxb
        · exact hle u h2
      · right
        refine ⟨i + 1, Nat.succ_lt_succ hi, ?_, hlt, ?_, ?_⟩
        · rw [hstep]; exact heq
        · intro j hj
          match j with
          | 0 => exact le_of_lt (lt_of_le_of_lt hxb hlt)
          | j' + 1 => exact hmax j' (Nat.lt_of_succ_lt_succ hj)
        · intro j hj hji
          match j with
          | 0 => exact lt_of_le_of_lt hxb hlt
          | j' + 1 => exact hfirst j' (Nat.lt_of_succ_lt_succ hj) (by omega)

/-! Lemmas about the similarity scores. -/

theorem orbAccuracy_nonneg (ds stored : List Desc) : 0 ≤ orbAccuracy ds stored := by
  unfold orbAccuracy
  positivity

theorem minutiaAccuracy_nonneg (probe stored : List (Nat × Nat)) :
    0 ≤ minutiaAccuracy probe stored := by
  unfold minutiaAccuracy
  split
  · positivity
  · exact le_refl 0

theorem hypScore_eq_some (env : Env) (sd : List Desc) (sm : List (Nat × Nat))
    (base : Img) (angle : Int) (s : Score3)
    (h : hypScore env sd sm base angle = some s) :
    s = (orbAccuracy (env.orbDetect (env.enhance (env.rotate base angle))) sd * 0.1 +
          minutiaAccuracy (extract_minutiae (env.enhance (env.rotate base angle))) sm * 0.9,
        orbAccuracy (env.orbDetect (env.enhance (env.rotate base angle))) sd,
        minutiaAccuracy (extract_minutiae (env.enhance (env.rotate base angle))) sm) ∧
      (env.orbDetect (env.enhance (env.rotate base angle))).isEmpty = false := by
  simp only [hypScore] at h
  split at h
  · exact absurd h (by simp)
  · rename_i hd
    injection h with h2
    exact ⟨h2.symm, by simpa using hd⟩

theorem hypScore_shape (env : Env) (sd : List Desc) (sm : List (Nat × Nat))
    (base : Img) (angle : Int) (s : Score3)
    (h : hypScore env sd sm base angle = some s) :
    s.1 = s.2.1 * 0.1 + s.2.2 * 0.9 ∧ 0 ≤ s.2.1 ∧ 0 ≤ s.2.2 := by
  obtain ⟨f, o, m⟩ := s
  obtain ⟨heq, -⟩ := hypScore_eq_some env sd sm base angle (f, o, m) h
  rw [Prod.mk.injEq, Prod.mk.injEq] at heq
  obtain ⟨h1, h2, h3⟩ := heq
  refine ⟨?_, ?_, ?_⟩
  · show f = o * 0.1 + m * 0.9
    rw [h1, h2, h3]
  · show (0:ℚ) ≤ o
    rw [h2]
    exact orbAccuracy_nonneg _ _
  · show (0:ℚ) ≤ m
    rw [h3]
    exact minutiaAccuracy_nonneg _ _

theorem hypScore_fst_nonneg (env : Env) (sd : List Desc) (sm : List (Nat × Nat))
    (base : Img) (angle : Int) (s : Score3)
    (h : hypScore env sd sm base angle = some s) : 0 ≤ s.1 := by
  obtain ⟨h1, h2, h3⟩ := hypScore_shape env sd sm base angle s h
  rw [h1]
  have ha := mul_nonneg h2 (show (0:ℚ) ≤ 0.1 by norm_num)
  have hb := mul_nonneg h3 (show (0:ℚ) ≤ 0.9 by norm_num)
  linarith

/-! Lemmas about the nearest-neighbour minutiae matching. -/

theorem nearestDist2_foldl (p : Nat × Nat) (t : List (Nat × Nat)) (d0 : Int) :
    ∃ d, (t.foldl (fun acc q =>
        match acc with
        | none => some (dist2 p q)
        | some d => if dist2 p q < d then some (dist2 p q) else acc) (some d0)) = some d ∧
      (d ≤ 36 ↔ d0 ≤ 36 ∨ ∃ q ∈ t, dist2 p q ≤ 36) := by
  induction t generalizing d0 with
  | nil => exact ⟨d0, rfl, by simp⟩
  | cons q t ih =>
    by_cases hq : dist2 p q < d0
    · obtain ⟨d, hd, hiff⟩ := ih (dist2 p q)
      refine ⟨d, by simpa [if_pos hq] using hd, ?_⟩
      rw [hiff]
      constructor
      · rintro (h | ⟨u, hu, hle⟩)
        · exact Or.inr ⟨q, List.mem_cons_self q t, h⟩
        · exact Or.inr ⟨u, List.mem_cons_of_mem q hu, hle⟩
      · rintro (h | ⟨u, hu, hle⟩)
        · exact Or.inl (le_trans (le_of_lt hq) h)
        · rcases List.mem_cons.mp hu with rfl | hu2
          · exact Or.inl hle
          · exact Or.inr ⟨u, hu2, hle⟩
    · obtain ⟨d, hd, hiff⟩ := ih d0
      refine ⟨d, by simpa [if_neg hq] using hd, ?_⟩
      rw [hiff]
      constructor
      · rintro (h | ⟨u, hu, hle⟩)
        · exact Or.inl h
        · exact Or.inr ⟨u, List.mem_cons_of_mem q hu, hle⟩
      · rintro (h | ⟨u, hu, hle⟩)
        · exact Or.inl h
        · rcases List.mem_cons.mp hu with rfl | hu2
          · exact Or.inl (le_trans (le_of_not_lt hq) hle)
          · exact Or.inr ⟨u, hu2, hle⟩

theorem nearestWithin_iff (p : Nat × Nat) (stored : List (Nat × Nat)) :
    nearestWithin p stored = true ↔ ∃ q ∈ stored, dist2 p q ≤ 36 := by
  unfold nearestWithin nearestDist2
  match stored with
  | [] => simp
  | q :: t =>
    obtain ⟨d, hd, hiff⟩ := nearestDist2_foldl p t (dist2 p q)
    rw [List.foldl_cons]
    rw [show (match (none : Option Int) with
        | none => some (dist2 p q)
        | some d => if dist2 p q < d then some (dist2 p q) else none) = some (dist2 p q)
      from rfl]
    rw [hd]
    simp only [decide_eq_true_eq, hiff]
    constructor
    · rintro (h | ⟨u, hu, hle⟩)
      · exact ⟨q, List.mem_cons_self q t, h⟩
      · exact ⟨u, List.mem_cons_of_mem q hu, hle⟩
    · rintro ⟨u, hu, hle⟩
      rcases List.mem_cons.mp hu with rfl | hu2
      · exact Or.inl hle
      · exact Or.inr ⟨u, hu2, hle⟩

theorem dist2_self (p : Nat × Nat) : dist2 p p = 0 := by
  simp [dist2]

theorem minutiaMatched_self (l : List (Nat × Nat)) : minutiaMatched l l = l.length := by
  unfold minutiaMatched
  rw [List.countP_eq_length]
  intro p hp
  exact (nearestWithin_iff p l).mpr ⟨p, hp, by rw [dist2_self]; decide⟩

theorem minutiaAccuracy_self (l : List (Nat × Nat)) (h : l ≠ []) :
    minutiaAccuracy l l = 100 := by
  have hl : 0 < l.length := List.length_pos.mpr h
  unfold minutiaAccuracy
  rw [if_pos ⟨hl, hl⟩, minutiaMatched_self, max_self]
  rw [div_self (Nat.cast_ne_zero.mpr hl.ne.symm)]
  norm_num

/-! Lemmas about the database model. -/

theorem get_fingerprint_append_self (db : DB) (uid : String) (t : Template)
    (h : get_fingerprint_by_id db uid = none) :
    get_fingerprint_by_id (db ++ [(uid, t)]) uid = some t := by
  unfold get_fingerprint_by_id at h ⊢
  have hf : db.find? (fun r => r.1 == uid) = none := by
    cases hfind : db.find? fun r => r.1 == uid with
    | none => rfl
    | some r => rw [hfind] at h; simp at h
  rw [List.find?_append, hf]
  simp

/-! Unfolding lemmas for the gate structure of register and verify. -/

theorem is_image_blurry_false (env : Env) (img : Img) (h : ¬ env.lapVar img < 5) :
    is_image_blurry env img = false := by
  simp [is_image_blurry, h]

theorem register_eq_of_success (env : Env) (db : DB) (path uid un ph : String) (base : Img)
    (h1 : env.readImage path = some base) (h2 : ¬ env.lapVar base < 5)
    (h3 : env.fpPresent path = true)
    (hds : (env.orbDetect (env.enhance base)).isEmpty = false)
    (hfresh : get_fingerprint_by_id db uid = none) :
    register_fingerprint env db path uid un ph =
      ("Fingerprint registered successfully.",
        db ++ [(uid, ⟨env.orbDetect (env.enhance base),
          extract_minutiae (env.enhance base), un, ph⟩)]) := by
  simp only [register_fingerprint, h1, is_image_blurry_false env base h2, h3,
    Bool.not_true, Bool.false_eq_true, if_false, hds, hfresh, save_fingerprint]

theorem register_db_unchanged_of_dup (env : Env) (db : DB) (path uid un ph : String)
    (t0 : Template) (hdup : get_fingerprint_by_id db uid = some t0) :
    (register_fingerprint env db path uid un ph).2 = db := by
  unfold register_fingerprint
  cases h1 : env.readImage path with
  | none => rfl
  | some base =>
    by_cases hb : is_image_blurry env base
    · simp [hb]
    · by_cases hp : env.fpPresent path
      · by_cases hd : (env.orbDetect (env.enhance base)).isEmpty
        · simp [hb, hp, hd]
        · simp [hb, hp, hd, hdup]
      · simp [hb, hp]

theorem register_eq_of_dup (env : Env) (db : DB) (path uid un ph : String) (base : Img)
    (t0 : Template)
    (h1 : env.readImage path = some base) (h2 : ¬ env.lapVar base < 5)
    (h3 : env.fpPresent path = true)
    (hds : (env.orbDetect (env.enhance base)).isEmpty = false)
    (hdup : get_fingerprint_by_id db uid = some t0) :
    register_fingerprint env db path uid un ph = ("User ID already registered.", db) := by
  simp only [register_fingerprint, h1, is_image_blurry_false env base h2, h3,
    Bool.not_true, Bool.false_eq_true, if_false, hds, hdup]

theorem register_eq_of_no_desc (env : Env) (db : DB) (path uid un ph : String) (base : Img)
    (h1 : env.readImage path = some base) (h2 : ¬ env.lapVar base < 5)
    (h3 : env.fpPresent path = true)
    (hds : env.orbDetect (env.enhance base) = []) :
    register_fingerprint env db path uid un ph = ("Fingerprint not detected.", db) := by
  simp only [register_fingerprint, h1, is_image_blurry_false env base h2, h3,
    Bool.not_true, Bool.false_eq_true, if_false, hds, List.isEmpty_nil, if_true]

theorem verify_eq_of_gates (env : Env) (db : DB) (path uid : String) (base : Img)
    (st : Template)
    (h1 : env.readImage path = some base) (h2 : ¬ env.lapVar base < 5)
    (h3 : env.fpPresent path = true)
    (h4 : get_fingerprint_by_id db uid = some st) :
    verify_fingerprint env db path uid =
      { status := if verifyDecision (bestScores env st.orb st.minutiae base)
            then "match_found" else "no_match",
        is_match := verifyDecision (bestScores env st.orb st.minutiae base),
        accuracy := (bestScores env st.orb st.minutiae base).1,
        orb_score := (bestScores env st.orb st.minutiae base).2.1,
        minutiae_score := (bestScores env st.orb st.minutiae base).2.2,
        username := some st.username,
        message := if verifyDecision (bestScores env st.orb st.minutiae base)
            then "Match found" else "No match found" } := by
  simp only [verify_fingerprint, h1, is_image_blurry_false env base h2, h3,
    Bool.not_true, Bool.false_eq_true, if_false, h4]

theorem verify_username_none_cases (env : Env) (db : DB) (path uid : String) :
    (env.readImage path = none → (verify_fingerprint env db path uid).username = none) ∧
    (∀ base, env.readImage path = some base → env.lapVar base < 5 →
      (verify_fingerprint env db path uid).username = none) ∧
    (∀ base, env.readImage path = some base → ¬ env.lapVar base < 5 →
      env.fpPresent path = false →
      (verify_fingerprint env db path uid).username = none) ∧
    (∀ base, env.readImage path = some base → ¬ env.lapVar base < 5 →
      env.fpPresent path = true → get_fingerprint_by_id db uid = none →
      (verify_fingerprint env db path uid).username = none) := by
  refine ⟨?_, ?_, ?_, ?_⟩
  · intro h
    simp [verify_fingerprint, h]
  · intro base h1 h2
    simp [verify_fingerprint, h1, is_image_blurry, h2]
  · intro base h1 h2 h3
    simp [verify_fingerprint, h1, is_image_blurry_false env base h2, h3]
  · intro base h1 h2 h3 h4
    simp [verify_fingerprint, h1, is_image_blurry_false env base h2, h3, h4]

/-! Lemmas about Otsu binarisation of rendered skeletons. -/

theorem flatten_map_map (S : BGrid) (f : Bool → Nat) :
    (S.map fun row => row.map f).flatten = S.flatten.map f := by
  induction S with
  | nil => rfl
  | cons r t ih =>
    simp only [List.map_cons, List.flatten_cons, List.map_append, ih]

theorem renderSkel_flatten (S : BGrid) :
    (renderSkel S).flatten = S.flatten.map fun b => if b then 255 else 0 := by
  unfold renderSkel
  exact flatten_map_map S _

theorem argmaxFirst_all_zero (f : Nat → ℚ) (l : List Nat) (hne : l ≠ [])
    (hz : ∀ x ∈ l, x = 0) : argmaxFirst f l = some 0 := by
  have aux : ∀ t : List Nat, (∀ x ∈ t, x = 0) →
      (t.foldl (fun acc x =>
        match acc with
        | none => some x
        | some b => if f b < f x then some x else acc) (some 0)) = some 0 := by
    intro t
    induction t with
    | nil => intro _; rfl
    | cons x t ih =>
      intro hx
      have hx0 : x = 0 := hx x (List.mem_cons_self x t)
      subst hx0
      rw [List.foldl_cons]
      simp only [ite_self]
      exact ih fun y hy => hx y (List.mem_cons_of_mem 0 hy)
  match l with
  | [] => exact absurd rfl hne
  | x :: t =>
    have hx0 : x = 0 := hz x (List.mem_cons_self x t)
    subst hx0
    unfold argmaxFirst
    rw [List.foldl_cons]
    exact aux t fun y hy => hz y (List.mem_cons_of_mem 0 hy)

theorem threshold_otsu_cons (img : Img) (v : Nat) (vs : List Nat)
    (hpx : img.flatten = v :: vs) :
    threshold_otsu img =
      if vs.all (fun x => x = v) then v
      else (argmaxFirst (classVar (v :: vs))
        ((List.range 255).filter fun t => decide (t ∈ (v :: vs)))).getD 0 := by
  unfold threshold_otsu
  rw [hpx]

theorem threshold_otsu_renderSkel (S : BGrid)
    (h : (∃ b ∈ S.flatten, b = false) ∨ S.flatten = []) :
    threshold_otsu (renderSkel S) = 0 := by
  rcases h with ⟨b0, hb0, hb0f⟩ | hemp
  · subst hb0f
    have h0mem : (0 : Nat) ∈ (renderSkel S).flatten := by
      rw [renderSkel_flatten]
      exact List.mem_map.mpr ⟨false, hb0, rfl⟩
    have hvals : ∀ v ∈ (renderSkel S).flatten, v = 0 ∨ v = 255 := by
      rw [renderSkel_flatten]
      intro v hv
      obtain ⟨b, hb, rfl⟩ := List.mem_map.mp hv
      cases b
      · exact Or.inl rfl
      · exact Or.inr rfl
    cases hpx : (renderSkel S).flatten with
    | nil => rw [hpx] at h0mem; simp at h0mem
    | cons v vs =>
      rw [hpx] at h0mem hvals
      rw [threshold_otsu_cons _ v vs hpx]
      by_cases hconst : vs.all (fun x => x = v) = true
      · rw [if_pos hconst]
        rcases List.mem_cons.mp h0mem with h0v | h0vs
        · exact h0v.symm
        · exact (of_decide_eq_true (List.all_eq_true.mp hconst 0 h0vs)).symm
      · rw [if_neg hconst]
        have hcz : ∀ x ∈ (List.range 255).filter
            (fun t => decide (t ∈ (v :: vs))), x = 0 := by
          intro x hx
          obtain ⟨hxr, hxm⟩ := List.mem_filter.mp hx
          have hxlt : x < 255 := List.mem_range.mp hxr
          rcases hvals x (of_decide_eq_true hxm) with h0 | h255
          · exact h0
          · omega
        have hcne : (List.range 255).filter
            (fun t => decide (t ∈ (v :: vs))) ≠ [] := by
          intro hnil
          have hin : (0:Nat) ∈ (List.range 255).filter
              (fun t => decide (t ∈ (v :: vs))) := by
            rw [List.mem_filter]
            exact ⟨List.mem_range.mpr (by omega), decide_eq_true h0mem⟩
          rw [hnil] at hin
          simp at hin
        rw [argmaxFirst_all_zero _ _ hcne hcz]
        rfl
  · have hrend : (renderSkel S).flatten = [] := by
      rw [renderSkel_flatten, hemp]
      rfl
    unfold threshold_otsu
    rw [hrend]

theorem binarize_renderSkel (S : BGrid)
    (h : (∃ b ∈ S.flatten, b = false) ∨ S.flatten = []) :
    binarizeImg (renderSkel S) = S := by
  show ((renderSkel S).map fun row => row.map fun v =>
      decide (threshold_otsu (renderSkel S) < v)) = S
  rw [threshold_otsu_renderSkel S h]
  unfold renderSkel
  rw [List.map_map]
  have hcomp : ((fun row : List Nat => row.map fun v => decide (0 < v)) ∘
      fun row : List Bool => row.map fun b => if b then 255 else 0) = id := by
    funext row
    simp only [Function.comp_apply, List.map_map]
    have hbf : ((fun v => decide (0 < v)) ∘ fun b : Bool => if b then (255:Nat) else 0) = id := by
      funext b
      cases b <;> rfl
    rw [hbf, List.map_id]
    rfl
  rw [hcomp, List.map_id]

theorem skeletonize_of_fixed (S : BGrid) (hfix : zhangStep S = S)
    (h : (∃ b ∈ S.flatten, b = false) ∨ S.flatten = []) :
    skeletonize (renderSkel S) = S := by
  show zhangThin (onCount (binarizeImg (renderSkel S)) + 1) (binarizeImg (renderSkel S)) = S
  rw [binarize_renderSkel S h]
  show (if zhangStep S = S then S else zhangThin (onCount S) (zhangStep S)) = S
  rw [if_pos hfix]

/-! Helper computations on the concrete witness environments. -/

theorem extract_minutiae_imgW : extract_minutiae imgW = [] := by decide

theorem bfMatchCount_ww : bfMatchCount [[0]] [[0]] = 1 := by decide

theorem orbAccuracy_ww : orbAccuracy [[0]] [[0]] = 100 := by
  unfold orbAccuracy
  rw [bfMatchCount_ww]
  norm_num

theorem minutiaAccuracy_nil_right (probe : List (Nat × Nat)) :
    minutiaAccuracy probe [] = 0 := by
  simp [minutiaAccuracy]

theorem hypScoreW (a : Int) : hypScore envW tW.orb tW.minutiae imgW a = some (10, 100, 0) := by
  have hd : envW.orbDetect (envW.enhance (envW.rotate imgW a)) = [[0]] := rfl
  have hd2 : envW.orbDetect imgW = [[0]] := rfl
  have he : envW.enhance (envW.rotate imgW a) = imgW := rfl
  simp only [hypScore, hd, he, hd2, List.isEmpty_cons, extract_minutiae_imgW]
  rw [if_neg (by simp)]
  rw [show tW.orb = [[0]] from rfl, show tW.minutiae = ([] : List (Nat × Nat)) from rfl]
  rw [orbAccuracy_ww, minutiaAccuracy_nil_right]
  norm_num

theorem bestScoresW : bestScores envW tW.orb tW.minutiae imgW = (10, 100, 0) := by
  unfold bestScores angles
  simp only [List.map_cons, List.map_nil, hypScoreW, List.foldl_cons, List.foldl_nil,
    loopStep, bestStep]
  norm_num

theorem verifyDecision_iff (b : Score3) :
    verifyDecision b = true ↔ (26 ≤ b.1 ∨ (45 < b.2.1 ∧ 15 < b.2.2)) := by
  unfold verifyDecision MATCH_THRESHOLD
  simp [Bool.or_eq_true, Bool.and_eq_true, decide_eq_true_eq]

/-- C1: for a verification call that reaches the hypothesis loop, the final
decision declares a match exactly when the best fused score is at least 26 or
the descriptor score at the best hypothesis exceeds 45 while its minutiae
score exceeds 15; a best fused score of exactly 26 is therefore match_found
and the per-hypothesis fused score is 0.1 times the descriptor score plus 0.9
times the minutiae score. -/
theorem verify_decision_rule (env : Env) (db : DB) (path uid : String) (base : Img)
    (st : Template)
    (h1 : env.readImage path = some base) (h2 : ¬ env.lapVar base < 5)
    (h3 : env.fpPresent path = true) (h4 : get_fingerprint_by_id db uid = some st) :
    ((verify_fingerprint env db path uid).status = "match_found" ↔
      (26 ≤ (bestScores env st.orb st.minutiae base).1 ∨
        (45 < (bestScores env st.orb st.minutiae base).2.1 ∧
          15 < (bestScores env st.orb st.minutiae base).2.2))) ∧
    ((verify_fingerprint env db path uid).status = "no_match" ↔
      ¬ (26 ≤ (bestScores env st.orb st.minutiae base).1 ∨
        (45 < (bestScores env st.orb st.minutiae base).2.1 ∧
          15 < (bestScores env st.orb st.minutiae base).2.2))) ∧
    ((verify_fingerprint env db path uid).is_match = true ↔
      (26 ≤ (bestScores env st.orb st.minutiae base).1 ∨
        (45 < (bestScores env st.orb st.minutiae base).2.1 ∧
          15 < (bestScores env st.orb st.minutiae base).2.2))) ∧
    (∀ a s, hypScore env st.orb st.minutiae base a = some s →
      s.1 = s.2.1 * 0.1 + s.2.2 * 0.9) := by
  have hst : (verify_fingerprint env db path uid).status =
      if verifyDecision (bestScores env st.orb st.minutiae base)
        then "match_found" else "no_match" := by
    rw [verify_eq_of_gates env db path uid base st h1 h2 h3 h4]
  have hm : (verify_fingerprint env db path uid).is_match =
      verifyDecision (bestScores env st.orb st.minutiae base) := by
    rw [verify_eq_of_gates env db path uid base st h1 h2 h3 h4]
  have hdec := verifyDecision_iff (bestScores env st.orb st.minutiae base)
  refine ⟨?_, ?_, ?_, fun a s hs => (hypScore_shape env st.orb st.minutiae base a s hs).1⟩
  · rw [hst]
    by_cases hd : verifyDecision (bestScores env st.orb st.minutiae base) = true
    · rw [if_pos hd]
      exact iff_of_true rfl (hdec.mp hd)
    · rw [if_neg hd]
      exact iff_of_false (by decide) fun hp => hd (hdec.mpr hp)
  · rw [hst]
    by_cases hd : verifyDecision (bestScores env st.orb st.minutiae base) = true
    · rw [if_pos hd]
      exact iff_of_false (by decide) (not_not_intro (hdec.mp hd))
    · rw [if_neg hd]
      exact iff_of_true rfl fun hp => hd (hdec.mpr hp)
  · rw [hm]
    exact hdec

/-- Witness for C1: in the concrete environment envW the gates pass, the best
triple is (10, 100, 0), and the decision rule classifies the call as
no_match. -/
theorem verify_decision_rule_witness :
    (verify_fingerprint envW dbW "p" "u1").status = "no_match" ∧
      (verify_fingerprint envW dbW "p" "u1").is_match = false := by
  have h := verify_decision_rule envW dbW "p" "u1" imgW tW rfl (by show ¬ (100:ℚ) < 5; norm_num) rfl rfl
  have hnot : ¬ (26 ≤ (bestScores envW tW.orb tW.minutiae imgW).1 ∨
      (45 < (bestScores envW tW.orb tW.minutiae imgW).2.1 ∧
        15 < (bestScores envW tW.orb tW.minutiae imgW).2.2)) := by
    rw [bestScoresW]
    norm_num
  refine ⟨h.2.1.mpr hnot, ?_⟩
  have := h.2.2.1
  rcases hb : (verify_fingerprint envW dbW "p" "u1").is_match with _ | _
  · rfl
  · rw [hb] at this
    exact absurd (this.mp rfl) hnot

/-- C10: whenever verification passes the quality gates and finds a stored
template, the returned username is the stored username, match or no match;
the username is none exactly on the error, blurry, no_fingerprint and
no_user early returns. -/
theorem verify_username_reporting :
    (∀ (env : Env) (db : DB) (path uid : String) (base : Img) (st : Template),
      env.readImage path = some base → ¬ env.lapVar base < 5 →
      env.fpPresent path = true → get_fingerprint_by_id db uid = some st →
      (verify_fingerprint env db path uid).username = some st.username) ∧
    (∀ (env : Env) (db : DB) (path uid : String),
      env.readImage path = none → (verify_fingerprint env db path uid).username = none) ∧
    (∀ (env : Env) (db : DB) (path uid : String) (base : Img),
      env.readImage path = some base → env.lapVar base < 5 →
      (verify_fingerprint env db path uid).username = none) ∧
    (∀ (env : Env) (db : DB) (path uid : String) (base : Img),
      env.readImage path = some base → ¬ env.lapVar base < 5 →
      env.fpPresent path = false →
      (verify_fingerprint env db path uid).username = none) ∧
    (∀ (env : Env) (db : DB) (path uid : String) (base : Img),
      env.readImage path = some base → ¬ env.lapVar base < 5 →
      env.fpPresent path = true → get_fingerprint_by_id db uid = none →
      (verify_fingerprint env db path uid).username = none) := by
  refine ⟨?_, ?_, ?_, ?_, ?_⟩
  · intro env db path uid base st h1 h2 h3 h4
    rw [verify_eq_of_gates env db path uid base st h1 h2 h3 h4]
  · intro env db path uid h
    exact (verify_username_none_cases env db path uid).1 h
  · intro env db path uid base h1 h2
    exact (verify_username_none_cases env db path uid).2.1 base h1 h2
  · intro env db path uid base h1 h2 h3
    exact (verify_username_none_cases env db path uid).2.2.1 base h1 h2 h3
  · intro env db path uid base h1 h2 h3 h4
    exact (verify_username_none_cases env db path uid).2.2.2 base h1 h2 h3 h4

/-- Witness for C10: the concrete no_match verification still reports the
stored username alice. -/
theorem verify_username_reporting_witness :
    (verify_fingerprint envW dbW "p" "u1").username = some "alice" :=
  verify_username_reporting.1 envW dbW "p" "u1" imgW tW rfl
    (by show ¬ (100:ℚ) < 5; norm_num) rfl rfl

/-- minutiaAccuracy restated with the specification's formula: 100 times the
number of probe points some stored point within distance 6, over the size of
the larger set; 0 when either set is empty. -/
theorem minutiaAccuracy_spec (probe stored : List (Nat × Nat)) :
    minutiaAccuracy probe stored =
      if probe ≠ [] ∧ stored ≠ [] then
        100 * ((probe.countP fun p => decide (∃ q ∈ stored, dist2 p q ≤ 36)) : ℚ) /
          ((max probe.length stored.length : Nat) : ℚ)
      else 0 := by
  unfold minutiaAccuracy minutiaMatched
  have hcnt : (probe.countP fun p => nearestWithin p stored) =
      probe.countP fun p => decide (∃ q ∈ stored, dist2 p q ≤ 36) := by
    apply List.countP_congr
    intro p _
    by_cases hp : ∃ q ∈ stored, dist2 p q ≤ 36
    · rw [decide_eq_true hp, (nearestWithin_iff p stored).mpr hp]
    · rw [decide_eq_false hp]
      rcases hn : nearestWithin p stored with _ | _
      · rfl
      · exact absurd ((nearestWithin_iff p stored).mp hn) hp
  rw [hcnt]
  rcases Decidable.em (probe ≠ [] ∧ stored ≠ []) with hne | hne
  · rw [if_pos hne, if_pos ⟨List.length_pos.mpr hne.1, List.length_pos.mpr hne.2⟩]
    ring
  · rw [if_neg hne]
    rw [if_neg ?_]
    intro ⟨hp, hs⟩
    exact hne ⟨List.length_pos.mp hp, List.length_pos.mp hs⟩

/-- C3: at every scored rotation hypothesis the minutiae score equals 100
times the number of probe minutiae whose nearest stored minutia lies within
the fixed 6 pixel radius, divided by the size of the larger set, and is 0
when either set is empty. -/
theorem minutiae_score_formula (env : Env) (sd : List Desc) (sm : List (Nat × Nat))
    (base : Img) (angle : Int) (s : Score3)
    (h : hypScore env sd sm base angle = some s) :
    s.2.2 = (if extract_minutiae (env.enhance (env.rotate base angle)) ≠ [] ∧ sm ≠ [] then
        100 * (((extract_minutiae (env.enhance (env.rotate base angle))).countP
            fun p => decide (∃ q ∈ sm, dist2 p q ≤ 36)) : ℚ) /
          ((max (extract_minutiae (env.enhance (env.rotate base angle))).length sm.length
            : Nat) : ℚ)
      else 0) := by
  obtain ⟨f, o, m⟩ := s
  obtain ⟨heq, -⟩ := hypScore_eq_some env sd sm base angle (f, o, m) h
  rw [Prod.mk.injEq, Prod.mk.injEq] at heq
  show m = _
  rw [heq.2.2]
  exact minutiaAccuracy_spec _ sm

/-- Witness for C3: on the concrete environment envW at angle -10 the scored
hypothesis has minutiae score 0 because the probe minutiae set is empty. -/
theorem minutiae_score_formula_witness :
    (10, 100, (0:ℚ)).2.2 =
      (if extract_minutiae (envW.enhance (envW.rotate imgW (-10))) ≠ [] ∧
          tW.minutiae ≠ [] then
        100 * (((extract_minutiae (envW.enhance (envW.rotate imgW (-10)))).countP
            fun p => decide (∃ q ∈ tW.minutiae, dist2 p q ≤ 36)) : ℚ) /
          ((max (extract_minutiae (envW.enhance (envW.rotate imgW (-10)))).length
            tW.minutiae.length : Nat) : ℚ)
      else 0) :=
  minutiae_score_formula envW tW.orb tW.minutiae imgW (-10) (10, 100, 0) (hypScoreW (-10))

/-- C4: the reported best triple is exactly the triple of one scored
hypothesis: the first one, in the fixed angle order, attaining the maximal
fused score; the descriptor and minutiae scores are never re-maximised
independently of the winning hypothesis. -/
theorem best_hypothesis_first_max (env : Env) (sd : List Desc) (sm : List (Nat × Nat))
    (base : Img)
    (h : (angles.map (hypScore env sd sm base)).reduceOption ≠ []) :
    ∃ i, ∃ hi : i < ((angles.map (hypScore env sd sm base)).reduceOption).length,
      bestScores env sd sm base =
        ((angles.map (hypScore env sd sm base)).reduceOption).get ⟨i, hi⟩ ∧
      (∀ j, ∀ hj : j < ((angles.map (hypScore env sd sm base)).reduceOption).length,
        (((angles.map (hypScore env sd sm base)).reduceOption).get ⟨j, hj⟩).1 ≤
          (((angles.map (hypScore env sd sm base)).reduceOption).get ⟨i, hi⟩).1) ∧
      (∀ j, ∀ hj : j < ((angles.map (hypScore env sd sm base)).reduceOption).length,
        j < i →
        (((angles.map (hypScore env sd sm base)).reduceOption).get ⟨j, hj⟩).1 <
          (((angles.map (hypScore env sd sm base)).reduceOption).get ⟨i, hi⟩).1) := by
  have hfold : bestScores env sd sm base =
      ((angles.map (hypScore env sd sm base)).reduceOption).foldl bestStep (0, 0, 0) := by
    unfold bestScores
    rw [foldl_loopStep_reduceOption]
  have hmem : ∀ t ∈ (angles.map (hypScore env sd sm base)).reduceOption,
      t.1 = t.2.1 * 0.1 + t.2.2 * 0.9 ∧ 0 ≤ t.2.1 ∧ 0 ≤ t.2.2 := by
    intro t ht
    obtain ⟨a, _, hfa⟩ := List.mem_map.mp (List.reduceOption_mem_iff.mp ht)
    exact hypScore_shape env sd sm base a t hfa
  rcases foldl_bestStep_spec ((angles.map (hypScore env sd sm base)).reduceOption) (0, 0, 0)
    with ⟨heq, hle⟩ | ⟨i, hi, heq, hlt, hmax, hfirst⟩
  · have hL0 : ∀ t ∈ (angles.map (hypScore env sd sm base)).reduceOption,
        t = ((0:ℚ), (0:ℚ), (0:ℚ)) := by
      intro t ht
      obtain ⟨f, o, m⟩ := t
      obtain ⟨hf, ho, hm⟩ := hmem (f, o, m) ht
      have h1 : f ≤ 0 := hle (f, o, m) ht
      have hf2 : f = o * 0.1 + m * 0.9 := hf
      have ho2 : (0:ℚ) ≤ o := ho
      have hm2 : (0:ℚ) ≤ m := hm
      have ho0 : o = 0 := by linarith
      have hm0 : m = 0 := by linarith
      have hf0 : f = 0 := by rw [hf2, ho0, hm0]; norm_num
      rw [ho0, hm0, hf0]
    have hpos : 0 < ((angles.map (hypScore env sd sm base)).reduceOption).length :=
      List.length_pos.mpr h
    refine ⟨0, hpos, ?_, ?_, ?_⟩
    · rw [hfold, heq,
        hL0 (((angles.map (hypScore env sd sm base)).reduceOption).get ⟨0, hpos⟩)
          (List.get_mem _ 0 hpos)]
    · intro j hj
      rw [hL0 (((angles.map (hypScore env sd sm base)).reduceOption).get ⟨j, hj⟩)
          (List.get_mem _ j hj),
        hL0 (((angles.map (hypScore env sd sm base)).reduceOption).get ⟨0, hpos⟩)
          (List.get_mem _ 0 hpos)]
    · intro j hj hj0
      omega
  · exact ⟨i, hi, hfold ▸ heq, hmax, hfirst⟩

/-- Witness for C4: on envW all five hypotheses are scored, so the scored
list is non-empty and the best triple is the triple of a first maximal
hypothesis. -/
theorem best_hypothesis_first_max_witness :
    ∃ i, ∃ hi : i < ((angles.map (hypScore envW tW.orb tW.minutiae imgW)).reduceOption).length,
      bestScores envW tW.orb tW.minutiae imgW =
        ((angles.map (hypScore envW tW.orb tW.minutiae imgW)).reduceOption).get ⟨i, hi⟩ ∧
      (∀ j, ∀ hj : j < ((angles.map (hypScore envW tW.orb tW.minutiae imgW)).reduceOption).length,
        (((angles.map (hypScore envW tW.orb tW.minutiae imgW)).reduceOption).get ⟨j, hj⟩).1 ≤
          (((angles.map (hypScore envW tW.orb tW.minutiae imgW)).reduceOption).get ⟨i, hi⟩).1) ∧
      (∀ j, ∀ hj : j < ((angles.map (hypScore envW tW.orb tW.minutiae imgW)).reduceOption).length,
        j < i →
        (((angles.map (hypScore envW tW.orb tW.minutiae imgW)).reduceOption).get ⟨j, hj⟩).1 <
          (((angles.map (hypScore envW tW.orb tW.minutiae imgW)).reduceOption).get ⟨i, hi⟩).1) := by
  refine best_hypothesis_first_max envW tW.orb tW.minutiae imgW ?_
  unfold angles
  simp only [List.map_cons, List.map_nil, hypScoreW, List.reduceOption_cons_of_some]
  simp

/-- C5: for an interior object pixel of a skeleton, the classification
depends only on the number of object pixels among its 8 neighbours: exactly 1
classifies it as a ridge ending, at least 3 as a bifurcation, and 0 or 2
yields no minutia (such a pixel never reaches the output); border pixels are
never candidates. -/
theorem minutiae_classification_local (g : BGrid) (i j : Nat)
    (hin : (i, j) ∈ interiorPixels g) (hon : bget g (i:Int) (j:Int) = true) :
    (minutiaType g i j = some "ending" ↔ neighborCount g (i:Int) (j:Int) = 1) ∧
    (minutiaType g i j = some "bifurcation" ↔ 3 ≤ neighborCount g (i:Int) (j:Int)) ∧
    (minutiaType g i j = none ↔
      (neighborCount g (i:Int) (j:Int) = 0 ∨ neighborCount g (i:Int) (j:Int) = 2)) ∧
    (neighborCount g (i:Int) (j:Int) = 0 ∨ neighborCount g (i:Int) (j:Int) = 2 →
      (i, j) ∉ minutiaeScan g) ∧
    (∀ p ∈ minutiaeScan g,
      1 ≤ p.1 ∧ p.1 + 1 < rowsOf g ∧ 1 ≤ p.2 ∧ p.2 + 1 < colsOf g) := by
  have hc := crossings_on g i j hon
  have htype : ∀ n : Nat, ((if n = 1 then some "ending"
      else if 3 ≤ n then some "bifurcation" else none) = some "ending" ↔ n = 1) ∧
      ((if n = 1 then some "ending"
      else if 3 ≤ n then some "bifurcation" else none) = some "bifurcation" ↔ 3 ≤ n) ∧
      ((if n = 1 then some "ending"
      else if 3 ≤ n then some "bifurcation" else none) = none ↔ (n = 0 ∨ n = 2)) := by
    intro n
    by_cases h1 : n = 1
    · rw [if_pos h1]
      refine ⟨iff_of_true rfl h1, iff_of_false (by simp) (by omega), iff_of_false (by simp) (by omega)⟩
    · rw [if_neg h1]
      by_cases h3 : 3 ≤ n
      · rw [if_pos h3]
        exact ⟨iff_of_false (by simp) h1, iff_of_true rfl h3,
          iff_of_false (by simp) (by omega)⟩
      · rw [if_neg h3]
        exact ⟨iff_of_false (by simp) h1, iff_of_false (by simp) h3,
          iff_of_true rfl (by omega)⟩
  have ht := htype (crossings g i j)
  rw [hc] at ht
  have hmt : minutiaType g i j = (if crossings g i j = 1 then some "ending"
      else if 3 ≤ crossings g i j then some "bifurcation" else none) := rfl
  rw [hc] at hmt
  refine ⟨hmt ▸ ht.1, hmt ▸ ht.2.1, hmt ▸ ht.2.2, ?_, ?_⟩
  · intro h02 hmem
    have hnone : minutiaType g i j = none := (hmt ▸ ht.2.2).mpr h02
    rcases (mem_minutiaeScan g (i, j)).mp hmem with he | hb
    · have := ((mem_minutiae_endings g (i, j)).mp he).2.2.1
      rw [hnone] at this
      exact absurd this (by simp)
    · have := ((mem_minutiae_bifurcations g (i, j)).mp hb).2.2.1
      rw [hnone] at this
      exact absurd this (by simp)
  · intro p hp
    have hip : p ∈ interiorPixels g := by
      rcases (mem_minutiaeScan g p).mp hp with he | hb
      · exact ((mem_minutiae_endings g p).mp he).1
      · exact ((mem_minutiae_bifurcations g p).mp hb).1
    obtain ⟨q, r⟩ := p
    exact (mem_interiorPixels g q r).mp hip

/-- Witness for C5: the centre of the plus-shaped skeleton is an interior
object pixel with 4 object neighbours and is classified as a bifurcation. -/
theorem minutiae_classification_local_witness :
    minutiaType plusSkel 6 6 = some "bifurcation" :=
  ((minutiae_classification_local plusSkel 6 6 (by decide) (by decide)).2.1).mpr (by decide)

/-- C6: with the default noise filtering enabled, a qualifying candidate (an
interior object pixel classified as ending or bifurcation) appears in the
output exactly when the count of object pixels in its clamped 11x11 window
reaches the fixed minimum density 10. -/
theorem density_filter_retention (g : BGrid) (i j : Nat)
    (hin : (i, j) ∈ interiorPixels g) (hon : bget g (i:Int) (j:Int) = true)
    (hq : minutiaType g i j ≠ none) :
    (i, j) ∈ minutiaeScan g ↔ 10 ≤ density g i j := by
  have hkeep : minutiaKeep g i j = decide (10 ≤ density g i j) := by
    unfold minutiaKeep USE_MINUTIAE_FILTERING
    simp
  constructor
  · intro hmem
    rcases (mem_minutiaeScan g (i, j)).mp hmem with he | hb
    · have := ((mem_minutiae_endings g (i, j)).mp he).2.2.2
      rw [hkeep] at this
      exact of_decide_eq_true this
    · have := ((mem_minutiae_bifurcations g (i, j)).mp hb).2.2.2
      rw [hkeep] at this
      exact of_decide_eq_true this
  · intro hd
    have hor : minutiaType g i j = some "ending" ∨
        minutiaType g i j = some "bifurcation" := by
      unfold minutiaType at hq ⊢
      by_cases h1 : crossings g i j = 1
      · exact Or.inl (by rw [if_pos h1])
      · by_cases h3 : 3 ≤ crossings g i j
        · rw [if_neg h1]
          exact Or.inr (by rw [if_pos h3])
        · rw [if_neg h1, if_neg h3] at hq
          exact absurd rfl hq
    rcases hor with hend | hbif
    · exact (mem_minutiaeScan g (i, j)).mpr (Or.inl
        ((mem_minutiae_endings g (i, j)).mpr
          ⟨hin, hon, hend, hkeep ▸ decide_eq_true hd⟩))
    · exact (mem_minutiaeScan g (i, j)).mpr (Or.inr
        ((mem_minutiae_bifurcations g (i, j)).mpr
          ⟨hin, hon, hbif, hkeep ▸ decide_eq_true hd⟩))

/-- Witness for C6: the centre bifurcation of the plus skeleton has density
21 in its 11x11 window and is therefore retained in the output. -/
theorem density_filter_retention_witness : (6, 6) ∈ minutiaeScan plusSkel :=
  (density_filter_retention plusSkel 6 6 (by decide) (by decide) (by decide)).mpr (by decide)

/-- C7: an empty descriptor set is a hard failure at enrollment (failure
message, database untouched), while at verification a hypothesis without
descriptors is skipped: it contributes no score triple and the loop proceeds
over the remaining angles unchanged. -/
theorem empty_descriptor_handling :
    (∀ (env : Env) (db : DB) (path uid un ph : String) (base : Img),
      env.readImage path = some base → ¬ env.lapVar base < 5 →
      env.fpPresent path = true → env.orbDetect (env.enhance base) = [] →
      register_fingerprint env db path uid un ph = ("Fingerprint not detected.", db)) ∧
    (∀ (env : Env) (sd : List Desc) (sm : List (Nat × Nat)) (base : Img) (a : Int),
      env.orbDetect (env.enhance (env.rotate base a)) = [] →
      hypScore env sd sm base a = none) ∧
    (∀ (acc : Score3) (l1 l2 : List (Option Score3)),
      (l1 ++ none :: l2).foldl loopStep acc = (l1 ++ l2).foldl loopStep acc) := by
  refine ⟨?_, ?_, ?_⟩
  · intro env db path uid un ph base h1 h2 h3 hds
    exact register_eq_of_no_desc env db path uid un ph base h1 h2 h3 hds
  · intro env sd sm base a hds
    simp only [hypScore, hds, List.isEmpty_nil, if_true]
  · intro acc l1 l2
    rw [List.foldl_append, List.foldl_append, List.foldl_cons]
    rfl

/-- Witness for C7: with the descriptor-free environment envE, enrollment of
a fresh user fails with the hard failure message and the database stays
empty. -/
theorem empty_descriptor_handling_witness :
    register_fingerprint envE [] "p" "u1" "alice" "111" =
      ("Fingerprint not detected.", []) :=
  empty_descriptor_handling.1 envE [] "p" "u1" "alice" "111" imgW rfl
    (by show ¬ (100:ℚ) < 5; norm_num) rfl rfl

/-- C8: when a template already exists for a user id, a repeated enrollment
leaves the database unchanged (the stored template survives), and an attempt
that passes the image and descriptor gates returns the duplicate message. -/
theorem duplicate_enrollment_unchanged (env : Env) (db : DB)
    (path uid un ph : String) (t0 : Template)
    (hdup : get_fingerprint_by_id db uid = some t0) :
    (register_fingerprint env db path uid un ph).2 = db ∧
    get_fingerprint_by_id (register_fingerprint env db path uid un ph).2 uid = some t0 ∧
    (∀ base, env.readImage path = some base → ¬ env.lapVar base < 5 →
      env.fpPresent path = true →
      (env.orbDetect (env.enhance base)).isEmpty = false →
      (register_fingerprint env db path uid un ph).1 = "User ID already registered.") := by
  refine ⟨register_db_unchanged_of_dup env db path uid un ph t0 hdup, ?_, ?_⟩
  · rw [register_db_unchanged_of_dup env db path uid un ph t0 hdup]
    exact hdup
  · intro base h1 h2 h3 hds
    rw [register_eq_of_dup env db path uid un ph base t0 h1 h2 h3 hds hdup]

/-- Witness for C8: re-enrolling u1 against the database dbW leaves it
unchanged and returns the duplicate message. -/
theorem duplicate_enrollment_unchanged_witness :
    (register_fingerprint envW dbW "p" "u1" "bob" "222").2 = dbW ∧
      (register_fingerprint envW dbW "p" "u1" "bob" "222").1 =
        "User ID already registered." := by
  have h := duplicate_enrollment_unchanged envW dbW "p" "u1" "bob" "222" tW rfl
  exact ⟨h.1, h.2.2 imgW rfl (by show ¬ (100:ℚ) < 5; norm_num) rfl rfl⟩

/-- C2 counterexample: with the environment envW every quality gate passes,
enrollment of the fresh user u1 succeeds, yet verifying the identical image
for u1 is classified no_match, because the extracted minutiae set is empty
and the best fused score is only 10. -/
theorem roundtrip_fails_without_minutiae :
    (register_fingerprint envW [] "p" "u1" "alice" "111").1 =
      "Fingerprint registered successfully." ∧
    (verify_fingerprint envW (register_fingerprint envW [] "p" "u1" "alice" "111").2
      "p" "u1").status = "no_match" ∧
    (verify_fingerprint envW (register_fingerprint envW [] "p" "u1" "alice" "111").2
      "p" "u1").is_match = false := by
  have hds : (envW.orbDetect (envW.enhance imgW)).isEmpty = false := rfl
  have hreg := register_eq_of_success envW [] "p" "u1" "alice" "111" imgW rfl
    (by show ¬ (100:ℚ) < 5; norm_num) rfl hds rfl
  have hT : (⟨envW.orbDetect (envW.enhance imgW), extract_minutiae (envW.enhance imgW),
      "alice", "111"⟩ : Template) = tW := by
    rw [show extract_minutiae (envW.enhance imgW) = [] from extract_minutiae_imgW]
    rfl
  rw [hT] at hreg
  have hdb : (register_fingerprint envW [] "p" "u1" "alice" "111").2 = [("u1", tW)] := by
    rw [hreg]
    rfl
  have hlook : get_fingerprint_by_id [("u1", tW)] "u1" = some tW := rfl
  have hver := verify_eq_of_gates envW [("u1", tW)] "p" "u1" imgW tW rfl
    (by show ¬ (100:ℚ) < 5; norm_num) rfl hlook
  have hvd : verifyDecision (bestScores envW tW.orb tW.minutiae imgW) = false := by
    rw [bestScoresW, Bool.eq_false_iff]
    intro hx
    have := (verifyDecision_iff ((10:ℚ), (100:ℚ), (0:ℚ))).mp hx
    norm_num at this
  refine ⟨by rw [hreg], ?_, ?_⟩
  · rw [hdb, hver]
    show (if verifyDecision (bestScores envW tW.orb tW.minutiae imgW)
        then "match_found" else "no_match") = "no_match"
    rw [hvd]
    rfl
  · rw [hdb, hver]
    show verifyDecision (bestScores envW tW.orb tW.minutiae imgW) = false
    exact hvd

/-- C2 amended: if in addition to the quality gates the enrolled image
yields a non-empty descriptor set (otherwise enrollment fails) and a
non-empty minutiae set (otherwise the best fused score is at most 10), and
rotation by 0 degrees leaves the image unchanged, then enrolling a fresh
user and verifying the identical image yields match_found with match true. -/
theorem roundtrip_match_of_minutiae_nonempty (env : Env) (db : DB)
    (path uid un ph : String) (base : Img)
    (h1 : env.readImage path = some base) (h2 : ¬ env.lapVar base < 5)
    (h3 : env.fpPresent path = true)
    (hfresh : get_fingerprint_by_id db uid = none)
    (hds : (env.orbDetect (env.enhance base)).isEmpty = false)
    (hmin : extract_minutiae (env.enhance base) ≠ [])
    (hrot0 : env.rotate base 0 = base) :
    (register_fingerprint env db path uid un ph).1 =
      "Fingerprint registered successfully." ∧
    (verify_fingerprint env (register_fingerprint env db path uid un ph).2
      path uid).status = "match_found" ∧
    (verify_fingerprint env (register_fingerprint env db path uid un ph).2
      path uid).is_match = true := by
  have hreg := register_eq_of_success env db path uid un ph base h1 h2 h3 hds hfresh
  have hdb : (register_fingerprint env db path uid un ph).2 =
      db ++ [(uid, ⟨env.orbDetect (env.enhance base),
        extract_minutiae (env.enhance base), un, ph⟩)] := by
    rw [hreg]
  have hlook := get_fingerprint_append_self db uid
    ⟨env.orbDetect (env.enhance base), extract_minutiae (env.enhance base), un, ph⟩ hfresh
  have hver := verify_eq_of_gates env
    (db ++ [(uid, ⟨env.orbDetect (env.enhance base),
      extract_minutiae (env.enhance base), un, ph⟩)])
    path uid base
    ⟨env.orbDetect (env.enhance base), extract_minutiae (env.enhance base), un, ph⟩
    h1 h2 h3 hlook
  have hhyp0 : hypScore env (env.orbDetect (env.enhance base))
      (extract_minutiae (env.enhance base)) base 0 =
      some (orbAccuracy (env.orbDetect (env.enhance base))
              (env.orbDetect (env.enhance base)) * 0.1 +
            minutiaAccuracy (extract_minutiae (env.enhance base))
              (extract_minutiae (env.enhance base)) * 0.9,
          orbAccuracy (env.orbDetect (env.enhance base))
            (env.orbDetect (env.enhance base)),
          minutiaAccuracy (extract_minutiae (env.enhance base))
            (extract_minutiae (env.enhance base))) := by
    simp only [hypScore, hrot0, hds, Bool.false_eq_true, if_false]
  have hbest : 26 ≤ (bestScores env (env.orbDetect (env.enhance base))
      (extract_minutiae (env.enhance base)) base).1 := by
    have hmem : some (orbAccuracy (env.orbDetect (env.enhance base))
            (env.orbDetect (env.enhance base)) * 0.1 +
          minutiaAccuracy (extract_minutiae (env.enhance base))
            (extract_minutiae (env.enhance base)) * 0.9,
        orbAccuracy (env.orbDetect (env.enhance base))
          (env.orbDetect (env.enhance base)),
        minutiaAccuracy (extract_minutiae (env.enhance base))
          (extract_minutiae (env.enhance base))) ∈
        angles.map (hypScore env (env.orbDetect (env.enhance base))
          (extract_minutiae (env.enhance base)) base) := by
      rw [show angles = [-10, -5, 0, 5, 10] from rfl]
      simp only [List.map_cons, List.map_nil]
      rw [hhyp0]
      simp
    have hge := foldl_loopStep_ge_of_mem
      (angles.map (hypScore env (env.orbDetect (env.enhance base))
        (extract_minutiae (env.enhance base)) base)) (0, 0, 0) _ hmem
    have hself := minutiaAccuracy_self (extract_minutiae (env.enhance base)) hmin
    have honn := orbAccuracy_nonneg (env.orbDetect (env.enhance base))
      (env.orbDetect (env.enhance base))
    rw [hself] at hge
    unfold bestScores
    have h90 : (90:ℚ) ≤ orbAccuracy (env.orbDetect (env.enhance base))
        (env.orbDetect (env.enhance base)) * 0.1 + 100 * 0.9 := by linarith
    calc (26:ℚ) ≤ orbAccuracy (env.orbDetect (env.enhance base))
          (env.orbDetect (env.enhance base)) * 0.1 + 100 * 0.9 := by linarith
      _ ≤ _ := hge
  have hvd : verifyDecision (bestScores env (env.orbDetect (env.enhance base))
      (extract_minutiae (env.enhance base)) base) = true :=
    (verifyDecision_iff _).mpr (Or.inl hbest)
  refine ⟨by rw [hreg], ?_, ?_⟩
  · rw [hdb, hver]
    show (if verifyDecision (bestScores env (env.orbDetect (env.enhance base))
        (extract_minutiae (env.enhance base)) base)
        then "match_found" else "no_match") = "match_found"
    rw [hvd]
    rfl
  · rw [hdb, hver]
    exact hvd

set_option maxRecDepth 4000

/-- Witness for the amended C2: with the environment envP (whose enhancement
yields the plus-shaped ridge image with nine minutiae), enrolling fresh user
u1 and verifying the identical image yields match_found. -/
theorem roundtrip_match_of_minutiae_nonempty_witness :
    (register_fingerprint envP [] "p" "u1" "alice" "111").1 =
      "Fingerprint registered successfully." ∧
    (verify_fingerprint envP (register_fingerprint envP [] "p" "u1" "alice" "111").2
      "p" "u1").status = "match_found" ∧
    (verify_fingerprint envP (register_fingerprint envP [] "p" "u1" "alice" "111").2
      "p" "u1").is_match = true :=
  roundtrip_match_of_minutiae_nonempty envP [] "p" "u1" "alice" "111" imgPlus rfl
    (by show ¬ (100:ℚ) < 5; norm_num) rfl rfl (by decide) (by decide) rfl

/-- C9 counterexample: the three-pixel staircase corner thinL is a width-1
skeleton (no fully object 2x2 block), yet re-skeletonizing its rendering
erodes it to a single pixel, so the skeleton extractor is not idempotent on
every thin input. -/
theorem skeletonize_not_idempotent_on_thin :
    isThin thinL = true ∧ skeletonize (renderSkel thinL) ≠ thinL := by
  constructor
  · decide
  · decide

/-- C9 amended: the skeleton extractor is idempotent on every skeleton that
is a fixed point of the thinning iteration (in particular on its own
outputs) and is not entirely made of object pixels; re-rendering such a
skeleton as a 0/255 image and re-skeletonizing returns it unchanged. -/
theorem skeletonize_idempotent_on_fixed (S : BGrid)
    (hfix : zhangStep S = S)
    (hoff : (∃ b ∈ S.flatten, b = false) ∨ S.flatten = []) :
    skeletonize (renderSkel S) = S :=
  skeletonize_of_fixed S hfix hoff

/-- Witness for the amended C9: the three-pixel horizontal line is a fixed
point of the thinning and survives a re-skeletonization round trip. -/
theorem skeletonize_idempotent_on_fixed_witness :
    skeletonize (renderSkel lineSkel) = lineSkel :=
  skeletonize_idempotent_on_fixed lineSkel (by decide) (Or.inl (by decide))

end FP
